import Mathlib

/-!
Verification of the pagination control in
`src/components/Pagination/Pagination.jsx` (RBB-Website).

The component has two parts:
* the `pages` memo, a pure page-window computation mapping
  `(currentPage, totalPages, pageNeighbors)` to the ordered list of display
  tokens (page numbers plus the `LEFT` / `RIGHT` ellipsis markers);
* the controller handlers `handleGoToPage`, `handleMoveLeft`,
  `handleMoveRight` and the per-token click dispatcher `handleClick`.

JavaScript numbers are embedded as `Int` (all arithmetic in the component is
small-integer arithmetic, far from any floating-point rounding).  The
heterogeneous JS array mixing numbers with the sentinel strings `LEFT` and
`RIGHT` is embedded as a list of an inductive token type.
-/

namespace Pagination

/-- Display token: a page number, or one of the two ellipsis sentinels
`LEFT_PAGE` / `RIGHT_PAGE` of the source (rendered as `...`, labelled
`Previous page` / `Next page`). -/
inductive PageToken where
  | page (n : Int)
  | LEFT
  | RIGHT
deriving DecidableEq, Repr

/-- Modelled from the spec: the helper `range` is imported from
`src/utils/common`, a file absent from the sources.  The spec describes its
uses as inclusive integer intervals (for example `pages
[startPage - spillOffset, startPage - 1]`, and step 2 returning
`Page(1) ... Page(totalPages)`), so `range a b = [a, a+1, ..., b]`, empty
when `b < a`. -/
def range (a b : Int) : List Int :=
  (List.range (b - a + 1).toNat).map (fun (i : Nat) => a + (i : Int))

/-- The `pages` memo of `Pagination.jsx` (lines 55-95), translated verbatim:
`totalNumbers = pageNeighbors*2 + 3`, `totalBlocks = totalNumbers + 2`; when
`totalPages > totalBlocks` a middle window `[startPage, endPage]` is built and
extended with spill pages and ellipsis sentinels, then wrapped in the terminal
pages `1` and `totalPages`; otherwise every page is listed. -/
def pages (currentPage totalPages pageNeighbors : Int) : List PageToken :=
  let totalNumbers := pageNeighbors * 2 + 3
  let totalBlocks := totalNumbers + 2
  if totalBlocks < totalPages then
    let startPage := max 2 (currentPage - pageNeighbors)
    let endPage := min (totalPages - 1) (currentPage + pageNeighbors)
    let mid := range startPage endPage
    let spillOffset := totalNumbers - ((mid.length : Int) + 1)
    let body :=
      if 2 < startPage ∧ ¬ 1 < totalPages - endPage then
        PageToken.LEFT ::
          (range (startPage - spillOffset) (startPage - 1) ++ mid).map PageToken.page
      else if ¬ 2 < startPage ∧ 1 < totalPages - endPage then
        (mid ++ range (endPage + 1) (endPage + spillOffset)).map PageToken.page
          ++ [PageToken.RIGHT]
      else if 2 < startPage ∧ 1 < totalPages - endPage then
        PageToken.LEFT :: mid.map PageToken.page ++ [PageToken.RIGHT]
      else
        mid.map PageToken.page
    PageToken.page 1 :: body ++ [PageToken.page totalPages]
  else
    (range 1 totalPages).map PageToken.page

/-- The data handed to the `onPageChanged` callback. -/
structure PageChangeInfo where
  currentPage : Int
  totalPages : Int
  pageLimit : Int
  totalRecords : Int
deriving DecidableEq, Repr

/-- The component closure state that `handleGoToPage` reads: `totalPages`,
`pageLimit`, `totalRecords`, and whether an `onPageChanged` callback is
registered (`if (onPageChanged)`). -/
structure PaginationEnv where
  totalPages : Int
  pageLimit : Int
  totalRecords : Int
  hasCallback : Bool
deriving DecidableEq, Repr

/-- `handleGoToPage` (lines 97-107): stores
`Math.max(0, Math.min(page, totalPages))` as the new current page, and, when a
callback is registered, emits `{ currentPage, totalPages, pageLimit,
totalRecords }` where `currentPage` is the closure value captured before the
`setCurrentPage` update takes effect.  The result is the pair (new current
page, emitted payload if any). -/
def handleGoToPage (env : PaginationEnv) (currentPage target : Int) :
    Int × Option PageChangeInfo :=
  (max 0 (min target env.totalPages),
   if env.hasCallback then
     some { currentPage := currentPage
            totalPages := env.totalPages
            pageLimit := env.pageLimit
            totalRecords := env.totalRecords }
   else none)

/-- `handleMoveLeft`: `handleGoToPage(currentPage - 1)`. -/
def handleMoveLeft (env : PaginationEnv) (currentPage : Int) :
    Int × Option PageChangeInfo :=
  handleGoToPage env currentPage (currentPage - 1)

/-- `handleMoveRight`: `handleGoToPage(currentPage + 1)`. -/
def handleMoveRight (env : PaginationEnv) (currentPage : Int) :
    Int × Option PageChangeInfo :=
  handleGoToPage env currentPage (currentPage + 1)

/-- The click handler attached to each rendered token (lines 117-121):
`LEFT` dispatches to `handleMoveLeft`, `RIGHT` to `handleMoveRight`, a page
number to `handleGoToPage(page)`. -/
def handleClick (env : PaginationEnv) (currentPage : Int) (token : PageToken) :
    Int × Option PageChangeInfo :=
  match token with
  | PageToken.LEFT => handleMoveLeft env currentPage
  | PageToken.RIGHT => handleMoveRight env currentPage
  | PageToken.page n => handleGoToPage env currentPage n

/-- A token rendered as `...` (either ellipsis sentinel). -/
def isEllipsis : PageToken → Bool
  | PageToken.page _ => false
  | PageToken.LEFT => true
  | PageToken.RIGHT => true

/-- Well-formedness of one adjacent token pair in a window for `t` total
pages: the two tokens are not both ellipses, a `LEFT` ellipsis is immediately
followed by a page greater than 2 (so it never duplicates the leading
`Page(1)` / `Page(2)` boundary), and a `RIGHT` ellipsis is immediately
preceded by a page smaller than `t - 1`. -/
def tokenOk (t : Int) (a b : PageToken) : Prop :=
  ¬(isEllipsis a = true ∧ isEllipsis b = true) ∧
  (a = PageToken.LEFT → ∃ n, b = PageToken.page n ∧ 2 < n) ∧
  (b = PageToken.RIGHT → ∃ n, a = PageToken.page n ∧ n < t - 1)

/-! ### Basic facts about `range` -/

theorem range_eq_nil {a b : Int} (h : b < a) : range a b = [] := by
  unfold range
  have : (b - a + 1).toNat = 0 := by omega
  simp [this]

theorem length_range (a b : Int) : (range a b).length = (b - a + 1).toNat := by
  simp [range]

theorem length_range_int {a b : Int} (h : a ≤ b + 1) :
    ((range a b).length : Int) = b - a + 1 := by
  rw [length_range]; omega

theorem mem_range {a b x : Int} : x ∈ range a b ↔ a ≤ x ∧ x ≤ b := by
  simp only [range, List.mem_map, List.mem_range]
  constructor
  · rintro ⟨i, hi, rfl⟩; omega
  · intro h
    exact ⟨(x - a).toNat, by omega, by omega⟩

theorem range_eq_cons {a b : Int} (h : a ≤ b) :
    range a b = a :: range (a + 1) b := by
  unfold range
  have h1 : (b - a + 1).toNat = (b - (a + 1) + 1).toNat + 1 := by omega
  rw [h1, List.range_succ_eq_map, List.map_cons, List.map_map]
  simp only [Nat.cast_zero, add_zero]
  refine congrArg (a :: ·) (List.map_congr_left ?_)
  intro i _
  simp only [Function.comp_apply, Nat.succ_eq_add_one]
  push_cast
  ring

theorem range_concat {a b : Int} (h : a ≤ b) :
    range a b = range a (b - 1) ++ [b] := by
  unfold range
  have h1 : (b - a + 1).toNat = (b - 1 - a + 1).toNat + 1 := by omega
  rw [h1, List.range_succ, List.map_append]
  refine congrArg _ ?_
  simp only [List.map_cons, List.map_nil]
  have : a + ((b - 1 - a + 1).toNat : Int) = b := by omega
  rw [this]

theorem head?_range {a b : Int} (h : a ≤ b) : (range a b).head? = some a := by
  rw [range_eq_cons h]; rfl

theorem getLast?_range {a b : Int} (h : a ≤ b) :
    (range a b).getLast? = some b := by
  rw [range_concat h, List.getLast?_concat]

theorem range_append_aux (b m : Int) (h2 : m ≤ b) :
    ∀ (n : Nat) (a : Int), (m + 1 - a).toNat = n → a ≤ m + 1 →
      range a m ++ range (m + 1) b = range a b := by
  intro n
  induction n with
  | zero =>
    intro a hn ha
    have h : a = m + 1 := by omega
    subst h
    rw [range_eq_nil (by omega), List.nil_append]
  | succ n ih =>
    intro a hn ha
    have ham : a ≤ m := by omega
    rw [range_eq_cons ham, range_eq_cons (show a ≤ b by omega), List.cons_append]
    exact congrArg (a :: ·) (ih (a + 1) (by omega) (by omega))

theorem range_append {a m b : Int} (h1 : a ≤ m + 1) (h2 : m ≤ b) :
    range a m ++ range (m + 1) b = range a b :=
  range_append_aux b m h2 _ a rfl h1

theorem range_append_pred {a m b : Int} (h1 : a ≤ m) (h2 : m ≤ b + 1) :
    range a (m - 1) ++ range m b = range a b := by
  have h := range_append (a := a) (m := m - 1) (b := b) (by omega) (by omega)
  have hm : m - 1 + 1 = m := by ring
  rw [hm] at h
  exact h

theorem getLast?_cons_eq {α : Type} (x : α) (l : List α) (h : l ≠ []) :
    (x :: l).getLast? = l.getLast? := by
  cases l with
  | nil => simp at h
  | cons y ys => exact List.getLast?_cons_cons

theorem getLast?_append_pair {α : Type} (l : List α) (a b : α) :
    (l ++ [a, b]).getLast? = some b := by
  rw [show l ++ [a, b] = (l ++ [a]) ++ [b] from by simp, List.getLast?_concat]

theorem head?_pageMap {a b : Int} (h : a ≤ b) :
    ((range a b).map PageToken.page).head? = some (PageToken.page a) := by
  rw [range_eq_cons h]; rfl

theorem getLast?_pageMap {a b : Int} (h : a ≤ b) :
    ((range a b).map PageToken.page).getLast? = some (PageToken.page b) := by
  rw [range_concat h, List.map_append]
  exact List.getLast?_concat _

/-! ### The window shape

For `totalPages > totalBlocks` the `pages` memo produces one of exactly three
shapes, depending on which side spills.  Writing `k` for the (pre-clamped)
neighbor count, the three regimes over `currentPage = c` are
`k + 3 ≤ c ≤ t - k - 2` (both sides spill), `t - k - 1 ≤ c` (left side only)
and `c ≤ k + 2` (right side only; with `t > 2k + 5` a spill-free window is
impossible). -/

theorem pages_shape (c t k : Int) (hk : 0 ≤ k) (ht : k * 2 + 3 + 2 < t)
    (hc1 : 1 ≤ c) (hc2 : c ≤ t) :
    pages c t k =
      if k + 3 ≤ c ∧ c ≤ t - k - 2 then
        PageToken.page 1 :: PageToken.LEFT ::
          ((range (c - k) (c + k)).map PageToken.page ++
            [PageToken.RIGHT, PageToken.page t])
      else if k + 3 ≤ c then
        PageToken.page 1 :: PageToken.LEFT ::
          ((range (t - k * 2 - 2) (t - 1)).map PageToken.page ++
            [PageToken.page t])
      else
        PageToken.page 1 ::
          ((range 2 (k * 2 + 3)).map PageToken.page ++
            [PageToken.RIGHT, PageToken.page t]) := by
  by_cases hL : k + 3 ≤ c
  · by_cases hR : c ≤ t - k - 2
    · -- both sides spill
      have hmax : max 2 (c - k) = c - k := by omega
      have hmin : min (t - 1) (c + k) = c + k := by omega
      simp only [pages]
      rw [hmax, hmin, if_pos ht]
      rw [if_neg (by omega : ¬(2 < c - k ∧ ¬1 < t - (c + k)))]
      rw [if_neg (by omega : ¬(¬2 < c - k ∧ 1 < t - (c + k)))]
      rw [if_pos (show 2 < c - k ∧ 1 < t - (c + k) by omega)]
      rw [if_pos (And.intro hL hR)]
      simp [List.cons_append, List.append_assoc]
    · -- only the left side spills
      have hmax : max 2 (c - k) = c - k := by omega
      have hmin : min (t - 1) (c + k) = t - 1 := by omega
      simp only [pages]
      rw [hmax, hmin, if_pos ht]
      rw [length_range_int (by omega : c - k ≤ t - 1 + 1)]
      rw [if_pos (show 2 < c - k ∧ ¬1 < t - (t - 1) by omega)]
      rw [if_neg (by omega : ¬(k + 3 ≤ c ∧ c ≤ t - k - 2)), if_pos hL]
      rw [show c - k - (k * 2 + 3 - (t - 1 - (c - k) + 1 + 1)) = t - k * 2 - 2
            from by ring]
      rw [range_append_pred (m := c - k) (by omega) (by omega)]
      simp [List.cons_append, List.append_assoc]
    -- the right-only regime is unreachable here since hL forces a left spill
  · -- only the right side spills
    have hmax : max 2 (c - k) = 2 := by omega
    have hmin : min (t - 1) (c + k) = c + k := by omega
    simp only [pages]
    rw [hmax, hmin, if_pos ht]
    rw [length_range_int (by omega : 2 ≤ c + k + 1)]
    rw [if_neg (by omega : ¬((2 : Int) < 2 ∧ ¬1 < t - (c + k)))]
    rw [if_pos (show ¬(2 : Int) < 2 ∧ 1 < t - (c + k) by omega)]
    rw [if_neg (by omega : ¬(k + 3 ≤ c ∧ c ≤ t - k - 2)),
        if_neg (by omega : ¬k + 3 ≤ c)]
    rw [show c + k + (k * 2 + 3 - (c + k - 2 + 1 + 1)) = k * 2 + 3 from by ring]
    rw [range_append (m := c + k) (by omega) (by omega)]
    simp [List.cons_append, List.append_assoc]

/-! ### Facts about `tokenOk` -/

theorem tokenOk_pages {t m n : Int} :
    tokenOk t (PageToken.page m) (PageToken.page n) := by
  refine ⟨by simp [isEllipsis], ?_, ?_⟩ <;> (intro h; simp at h)

theorem tokenOk_page_left {t m : Int} :
    tokenOk t (PageToken.page m) PageToken.LEFT := by
  refine ⟨by simp [isEllipsis], ?_, ?_⟩ <;> (intro h; simp at h)

theorem tokenOk_right_page {t m : Int} :
    tokenOk t PageToken.RIGHT (PageToken.page m) := by
  refine ⟨by simp [isEllipsis], ?_, ?_⟩ <;> (intro h; simp at h)

theorem tokenOk_left_page {t n : Int} (h : 2 < n) :
    tokenOk t PageToken.LEFT (PageToken.page n) := by
  refine ⟨by simp [isEllipsis], fun _ => ⟨n, rfl, h⟩, ?_⟩
  intro h'; simp at h'

theorem tokenOk_page_right {t n : Int} (h : n < t - 1) :
    tokenOk t (PageToken.page n) PageToken.RIGHT := by
  refine ⟨by simp [isEllipsis], ?_, fun _ => ⟨n, rfl, h⟩⟩
  intro h'; simp at h'

theorem chain'_map_page (t : Int) (l : List Int) :
    List.Chain' (tokenOk t) (l.map PageToken.page) := by
  induction l with
  | nil => simp
  | cons x xs ih =>
    cases xs with
    | nil => exact List.chain'_singleton _
    | cons y ys =>
      rw [List.map_cons, List.map_cons, List.chain'_cons]
      exact ⟨tokenOk_pages, ih⟩

/-! ### The claims -/

/-- Claim C1: for every `totalPages ≥ 1`, every `currentPage` in
`[1, totalPages]` and every neighbor count in `[0, 2]`, the token sequence
produced by the `pages` memo begins with `Page(1)` and ends with
`Page(totalPages)`. -/
theorem C1_first_last (c t k : Int) (ht : 1 ≤ t) (hc1 : 1 ≤ c) (hc2 : c ≤ t)
    (hk1 : 0 ≤ k) (hk2 : k ≤ 2) :
    (pages c t k).head? = some (PageToken.page 1) ∧
    (pages c t k).getLast? = some (PageToken.page t) := by
  by_cases hw : k * 2 + 3 + 2 < t
  · rw [pages_shape c t k hk1 hw hc1 hc2]
    split_ifs with h1 h2
    · exact ⟨rfl, by
        rw [List.getLast?_cons_cons, getLast?_cons_eq _ _ (by simp),
            getLast?_append_pair]⟩
    · exact ⟨rfl, by
        rw [List.getLast?_cons_cons, getLast?_cons_eq _ _ (by simp),
            List.getLast?_concat]⟩
    · exact ⟨rfl, by
        rw [getLast?_cons_eq _ _ (by simp), getLast?_append_pair]⟩
  · constructor
    · simp only [pages]
      rw [if_neg hw, range_eq_cons (show (1 : Int) ≤ t from ht)]
      rfl
    · simp only [pages]
      rw [if_neg hw, List.getLast?_map, getLast?_range (show (1 : Int) ≤ t from ht)]
      rfl

/-- Claim C1 witness at `currentPage = 6`, `totalPages = 10`,
`neighborCount = 2`. -/
theorem C1_witness :
    ((1 : Int) ≤ 10 ∧ (1 : Int) ≤ 6 ∧ (6 : Int) ≤ 10 ∧ (0 : Int) ≤ 2 ∧ (2 : Int) ≤ 2) ∧
    ((pages 6 10 2).head? = some (PageToken.page 1) ∧
     (pages 6 10 2).getLast? = some (PageToken.page 10)) :=
  ⟨by decide,
   C1_first_last 6 10 2 (by decide) (by decide) (by decide) (by decide) (by decide)⟩

/-- Claim C2: for every neighbor count `k` in `[0, 2]` and every
`totalPages = t` with `0 ≤ t ≤ k*2 + 5`, the `pages` memo returns exactly
`Page(1), Page(2), ..., Page(t)` (empty when `t = 0`), with no ellipsis
tokens, for any `currentPage` whatsoever. -/
theorem C2_no_window_all_pages (c t k : Int) (hk1 : 0 ≤ k) (hk2 : k ≤ 2)
    (ht0 : 0 ≤ t) (ht : t ≤ k * 2 + 5) :
    pages c t k =
      (List.range t.toNat).map (fun (n : Nat) => PageToken.page ((n : Int) + 1)) ∧
    ∀ tok ∈ pages c t k, tok ≠ PageToken.LEFT ∧ tok ≠ PageToken.RIGHT := by
  have hbranch : ¬ k * 2 + 3 + 2 < t := by omega
  have h1 : pages c t k =
      (List.range t.toNat).map (fun (n : Nat) => PageToken.page ((n : Int) + 1)) := by
    simp only [pages]
    rw [if_neg hbranch]
    unfold range
    rw [show t - 1 + 1 = t from by ring, List.map_map]
    refine List.map_congr_left ?_
    intro i _
    show PageToken.page (1 + (i : Int)) = PageToken.page ((i : Int) + 1)
    rw [add_comm]
  refine ⟨h1, ?_⟩
  rw [h1]
  intro tok htok
  rcases List.mem_map.mp htok with ⟨n, hn, rfl⟩
  exact ⟨by simp, by simp⟩

/-- Claim C2 witness at `currentPage = 3`, `totalPages = 7`,
`neighborCount = 1`. -/
theorem C2_witness :
    ((0 : Int) ≤ 1 ∧ (1 : Int) ≤ 2 ∧ (0 : Int) ≤ 7 ∧ (7 : Int) ≤ 1 * 2 + 5) ∧
    pages 3 7 1 =
      (List.range (7 : Int).toNat).map (fun (n : Nat) => PageToken.page ((n : Int) + 1)) :=
  ⟨by decide,
   (C2_no_window_all_pages 3 7 1 (by decide) (by decide) (by decide) (by decide)).1⟩

/-- Claim C3: for every neighbor count `k` in `[0, 2]`, every
`totalPages = t > k*2 + 5` and every `currentPage` in `[1, t]`, the produced
token sequence has exactly `k*2 + 5` elements: the `spillOffset` extra pages
keep the visible count identical whether one side spills or both do. -/
theorem C3_window_length (c t k : Int) (hk1 : 0 ≤ k) (hk2 : k ≤ 2)
    (ht : k * 2 + 5 < t) (hc1 : 1 ≤ c) (hc2 : c ≤ t) :
    ((pages c t k).length : Int) = k * 2 + 5 := by
  rw [pages_shape c t k hk1 (by omega) hc1 hc2]
  split_ifs with h1 h2 <;>
    simp [List.length_append, length_range] <;> omega

/-- Claim C3 witness: the three spill regimes at `totalPages = 10`,
`neighborCount = 1` all have `1*2 + 5 = 7` tokens. -/
theorem C3_witness :
    ((0 : Int) ≤ 1 ∧ (1 : Int) ≤ 2 ∧ (1 * 2 + 5 : Int) < 10 ∧ (1 : Int) ≤ 5 ∧ (5 : Int) ≤ 10) ∧
    ((pages 5 10 1).length : Int) = 1 * 2 + 5 :=
  ⟨by decide, C3_window_length 5 10 1 (by decide) (by decide) (by decide) (by decide) (by decide)⟩

/-- Claim C4: for every `totalPages ≥ 1`, every `currentPage` in
`[1, totalPages]` and every neighbor count in `[0, 2]`, the token
`Page(currentPage)` occurs in the produced sequence. -/
theorem C4_current_page_mem (c t k : Int) (ht : 1 ≤ t) (hc1 : 1 ≤ c)
    (hc2 : c ≤ t) (hk1 : 0 ≤ k) (hk2 : k ≤ 2) :
    PageToken.page c ∈ pages c t k := by
  by_cases hw : k * 2 + 3 + 2 < t
  · rw [pages_shape c t k hk1 hw hc1 hc2]
    split_ifs with h1 h2
    · -- both sides spill: the current page sits in the middle window
      refine List.mem_cons_of_mem _ (List.mem_cons_of_mem _ ?_)
      refine List.mem_append_left _ ?_
      exact List.mem_map_of_mem _ (mem_range.mpr ⟨by omega, by omega⟩)
    · -- left spill only: either the trailing terminal page or the window
      by_cases hct : c = t
      · subst hct
        simp
      · refine List.mem_cons_of_mem _ (List.mem_cons_of_mem _ ?_)
        refine List.mem_append_left _ ?_
        exact List.mem_map_of_mem _ (mem_range.mpr ⟨by omega, by omega⟩)
    · -- right spill only: either the leading terminal page or the window
      by_cases hc1' : c = 1
      · subst hc1'
        exact List.mem_cons_self _ _
      · refine List.mem_cons_of_mem _ ?_
        refine List.mem_append_left _ ?_
        exact List.mem_map_of_mem _ (mem_range.mpr ⟨by omega, by omega⟩)
  · simp only [pages]
    rw [if_neg hw]
    exact List.mem_map_of_mem _ (mem_range.mpr ⟨hc1, hc2⟩)

/-- Claim C4 witness at `currentPage = 9`, `totalPages = 10`,
`neighborCount = 0` (a left-spill window where the current page survives). -/
theorem C4_witness :
    ((1 : Int) ≤ 10 ∧ (1 : Int) ≤ 9 ∧ (9 : Int) ≤ 10 ∧ (0 : Int) ≤ 0 ∧ (0 : Int) ≤ 2) ∧
    PageToken.page 9 ∈ pages 9 10 0 :=
  ⟨by decide,
   C4_current_page_mem 9 10 0 (by decide) (by decide) (by decide) (by decide) (by decide)⟩

/-- Claim C5: for all valid inputs the produced sequence never holds two
adjacent ellipsis tokens, a `LEFT` ellipsis is immediately followed by a page
token greater than 2, and a `RIGHT` ellipsis is immediately preceded by a
page token smaller than `totalPages - 1` (so an ellipsis never hides zero
pages next to a terminal page): every adjacent pair satisfies `tokenOk`. -/
theorem C5_ellipsis_adjacency (c t k : Int) (ht0 : 0 ≤ t) (hc1 : 1 ≤ c)
    (hc2 : c ≤ t) (hk1 : 0 ≤ k) (hk2 : k ≤ 2) :
    List.Chain' (tokenOk t) (pages c t k) := by
  by_cases hw : k * 2 + 3 + 2 < t
  · rw [pages_shape c t k hk1 hw hc1 hc2]
    split_ifs with h1 h2
    · -- both sides spill
      rw [List.chain'_cons]
      refine ⟨tokenOk_page_left, ?_⟩
      rw [List.chain'_cons']
      constructor
      · intro y hy
        rw [List.head?_append, head?_pageMap (by omega : c - k ≤ c + k)] at hy
        simp at hy
        subst hy
        exact tokenOk_left_page (by omega)
      · rw [List.chain'_append]
        refine ⟨chain'_map_page t _, ?_, ?_⟩
        · rw [List.chain'_cons]
          exact ⟨tokenOk_right_page, List.chain'_singleton _⟩
        · intro x hx y hy
          rw [getLast?_pageMap (by omega : c - k ≤ c + k)] at hx
          simp at hx hy
          subst hx
          subst hy
          exact tokenOk_page_right (by omega)
    · -- left spill only
      rw [List.chain'_cons]
      refine ⟨tokenOk_page_left, ?_⟩
      rw [List.chain'_cons']
      constructor
      · intro y hy
        rw [List.head?_append,
            head?_pageMap (by omega : t - k * 2 - 2 ≤ t - 1)] at hy
        simp at hy
        subst hy
        exact tokenOk_left_page (by omega)
      · rw [List.chain'_append]
        refine ⟨chain'_map_page t _, List.chain'_singleton _, ?_⟩
        intro x hx y hy
        rw [getLast?_pageMap (by omega : t - k * 2 - 2 ≤ t - 1)] at hx
        simp at hx hy
        subst hx
        subst hy
        exact tokenOk_pages
    · -- right spill only
      rw [List.chain'_cons']
      constructor
      · intro y hy
        rw [List.head?_append, head?_pageMap (by omega : (2 : Int) ≤ k * 2 + 3)] at hy
        simp at hy
        subst hy
        exact tokenOk_pages
      · rw [List.chain'_append]
        refine ⟨chain'_map_page t _, ?_, ?_⟩
        · rw [List.chain'_cons]
          exact ⟨tokenOk_right_page, List.chain'_singleton _⟩
        · intro x hx y hy
          rw [getLast?_pageMap (by omega : (2 : Int) ≤ k * 2 + 3)] at hx
          simp at hx hy
          subst hx
          subst hy
          exact tokenOk_page_right (by omega)
  · simp only [pages]
    rw [if_neg hw]
    exact chain'_map_page t _

/-- Claim C5 witness at the spec scenario `currentPage = 6`,
`totalPages = 10`, `neighborCount = 2`. -/
theorem C5_witness :
    ((0 : Int) ≤ 10 ∧ (1 : Int) ≤ 6 ∧ (6 : Int) ≤ 10 ∧ (0 : Int) ≤ 2 ∧ (2 : Int) ≤ 2) ∧
    List.Chain' (tokenOk 10) (pages 6 10 2) :=
  ⟨by decide,
   C5_ellipsis_adjacency 6 10 2 (by decide) (by decide) (by decide) (by decide) (by decide)⟩

/-- Claim C6: `handleGoToPage(target)` stores
`Math.max(0, Math.min(target, totalPages))` — the target is clamped to
`[0, totalPages]` with lower bound 0 rather than 1, so the current page can
become 0, for example on a move-left from page 1. -/
theorem C6_goto_clamp (env : PaginationEnv) (c target : Int) :
    (handleGoToPage env c target).1 = max 0 (min target env.totalPages) ∧
    (0 ≤ env.totalPages → (handleMoveLeft env 1).1 = 0) := by
  refine ⟨rfl, ?_⟩
  intro h
  simp only [handleMoveLeft, handleGoToPage]
  omega

/-- Claim C6 witness: with 10 total pages, a move-left from page 1 stores
page 0. -/
theorem C6_witness :
    (0 : Int) ≤ (PaginationEnv.mk 10 10 100 true).totalPages ∧
    (handleMoveLeft (PaginationEnv.mk 10 10 100 true) 1).1 = 0 :=
  ⟨by decide, (C6_goto_clamp (PaginationEnv.mk 10 10 100 true) 1 0).2 (by decide)⟩

/-- Claim C7: whenever a callback is registered, `handleGoToPage` emits the
payload `{ currentPage, totalPages, pageLimit, totalRecords }` in which
`currentPage` is the pre-update value captured before the clamped target is
stored. -/
theorem C7_callback_stale_current (env : PaginationEnv) (c target : Int)
    (h : env.hasCallback = true) :
    (handleGoToPage env c target).2 =
      some { currentPage := c
             totalPages := env.totalPages
             pageLimit := env.pageLimit
             totalRecords := env.totalRecords } := by
  simp [handleGoToPage, h]

/-- Claim C7 witness: navigating from page 5 to page 7 stores 7 but reports
`currentPage = 5`, the stale pre-update value. -/
theorem C7_witness :
    (PaginationEnv.mk 10 10 100 true).hasCallback = true ∧
    (handleGoToPage (PaginationEnv.mk 10 10 100 true) 5 7).2 =
      some (PageChangeInfo.mk 5 10 10 100) ∧
    (handleGoToPage (PaginationEnv.mk 10 10 100 true) 5 7).1 = 7 :=
  ⟨rfl, C7_callback_stale_current (PaginationEnv.mk 10 10 100 true) 5 7 rfl,
   by decide⟩

/-- Claim C8 counterexample: the claim says a click on an ellipsis token is a
no-op that leaves the current page unchanged and fires no handler; with 10
total pages and current page 5, clicking `LEFT` stores page 4 and emits a
callback payload. -/
theorem C8_counterexample :
    ¬((handleClick (PaginationEnv.mk 10 10 100 true) 5 PageToken.LEFT).1 = 5 ∧
      (handleClick (PaginationEnv.mk 10 10 100 true) 5 PageToken.LEFT).2 = none) := by
  decide

/-- Claim C8 (amended): clicking a `LEFT` (resp. `RIGHT`) ellipsis token is
not a no-op: it dispatches to `handleMoveLeft` (resp. `handleMoveRight`), so
the clamped previous (next) page is stored and the callback fires exactly when
one is registered. -/
theorem C8_ellipsis_click_navigates (env : PaginationEnv) (c : Int) :
    (handleClick env c PageToken.LEFT).1 = max 0 (min (c - 1) env.totalPages) ∧
    (handleClick env c PageToken.RIGHT).1 = max 0 (min (c + 1) env.totalPages) ∧
    (handleClick env c PageToken.LEFT).2 =
      (if env.hasCallback then
         some (PageChangeInfo.mk c env.totalPages env.pageLimit env.totalRecords)
       else none) ∧
    (handleClick env c PageToken.RIGHT).2 =
      (if env.hasCallback then
         some (PageChangeInfo.mk c env.totalPages env.pageLimit env.totalRecords)
       else none) :=
  ⟨rfl, rfl, rfl, rfl⟩

/-- Claim C9: with no registered callback, `handleGoToPage` still stores the
clamped target and completes silently, emitting nothing. -/
theorem C9_no_callback_silent (env : PaginationEnv) (c target : Int)
    (h : env.hasCallback = false) :
    (handleGoToPage env c target).1 = max 0 (min target env.totalPages) ∧
    (handleGoToPage env c target).2 = none := by
  refine ⟨rfl, ?_⟩
  simp [handleGoToPage, h]

/-- Claim C9 witness at 10 total pages, no callback, navigating 5 to 7. -/
theorem C9_witness :
    (PaginationEnv.mk 10 10 100 false).hasCallback = false ∧
    (handleGoToPage (PaginationEnv.mk 10 10 100 false) 5 7).1 =
      max 0 (min 7 (PaginationEnv.mk 10 10 100 false).totalPages) ∧
    (handleGoToPage (PaginationEnv.mk 10 10 100 false) 5 7).2 = none :=
  ⟨rfl, (C9_no_callback_silent (PaginationEnv.mk 10 10 100 false) 5 7 rfl).1,
   (C9_no_callback_silent (PaginationEnv.mk 10 10 100 false) 5 7 rfl).2⟩

/-- Claim C10: with a registered callback, every `handleGoToPage` call — and
hence every move-left, move-right or page click — emits a payload, even when
the clamped target equals the current page. -/
theorem C10_callback_always_fires (env : PaginationEnv) (c target : Int)
    (h : env.hasCallback = true) :
    ((handleGoToPage env c target).2).isSome = true ∧
    ∀ token : PageToken, ((handleClick env c token).2).isSome = true := by
  constructor
  · simp [handleGoToPage, h]
  · intro token
    cases token <;>
      simp [handleClick, handleMoveLeft, handleMoveRight, handleGoToPage, h]

/-- Claim C10 witness: clicking the already-current page 3 (no page change)
still fires the callback, as does an ellipsis click. -/
theorem C10_witness :
    (PaginationEnv.mk 10 10 100 true).hasCallback = true ∧
    ((handleGoToPage (PaginationEnv.mk 10 10 100 true) 3 3).2).isSome = true ∧
    ((handleClick (PaginationEnv.mk 10 10 100 true) 3 PageToken.LEFT).2).isSome = true :=
  ⟨rfl, (C10_callback_always_fires (PaginationEnv.mk 10 10 100 true) 3 3 rfl).1,
   (C10_callback_always_fires (PaginationEnv.mk 10 10 100 true) 3 3 rfl).2
     PageToken.LEFT⟩

end Pagination
